import Mathlib

/-!
Verification of the iocc dependency-injection core (registration store,
resolver, lifetime/captivity validator, process-wide container registry).

The repository ships only the `IContainer` interface declaration; the
resolver, registry and container-registry implementations are modelled
here from the specification's data model (§3) and algorithm (§4.3–§4.6),
as executable Lean functions with explicit state passing.  Instance and
container identity are modelled with counters, mirroring object identity.
-/

namespace IOCC

/-- Modelled from the spec: a Token is an opaque identity value — either a
constructor used directly as a token, or an explicitly created symbolic
identity.  Equality is identity-based. -/
inductive Token where
  | ctor (id : Nat)
  | symbol (id : Nat)
deriving DecidableEq

/-- Modelled from the spec: the Singleton/Transient lifetime binary. -/
inductive Lifetime where
  | singleton
  | transient
deriving DecidableEq

/-- Modelled from the spec: a Binding pairs an implementation constructor
(identified by a `Nat` constructor identity), a lifetime kind, and the
ordered list of declared dependency tokens (supplied by the external
constructor-discovery collaborator, §6). -/
structure Binding where
  implementation : Nat
  lifetime : Lifetime
  dependencyTokens : List Token
deriving DecidableEq

/-- Modelled from the spec: a constructed instance.  Object identity is the
counter value `iid` assigned at construction; the instance records its class
and the identities of the dependency instances supplied, in declared order. -/
structure Instance where
  iid : Nat
  implementation : Nat
  args : List Nat
deriving DecidableEq

/-- Association-list lookup keyed by decidable equality; first match wins,
mirroring map semantics with insertion at the front shadowing. -/
def alookup {κ α : Type} [DecidableEq κ] (k : κ) : List (κ × α) → Option α
  | [] => none
  | (k', v) :: rest => if k' = k then some v else alookup k rest

/-- Modelled from the spec: per-container state — registry (Token → Binding),
singleton instance cache (Token → Instance), plus the instance-identity
counter.  `cid` is the container's own object identity.  The resolution
stack is call-local (§5) and is threaded through the resolver as an
argument rather than stored. -/
structure Container where
  cid : Nat
  registry : List (Token × Binding)
  singletonCache : List (Token × Instance)
  nextIid : Nat
deriving DecidableEq

/-- Modelled from the spec: the resolution error taxonomy (§7). -/
inductive ResolutionError where
  | circularDependency (path : List Token)
  | unregisteredDependency (token : Token)
  | captiveDependency (parentToken : Token) (parentLifetime : Lifetime)
      (childToken : Token) (childLifetime : Lifetime)
deriving DecidableEq

/-- Outcome of a resolver step: success or failure, each carrying the
container state at that point (mutations made before a thrown error
persist, as in the source language); `fuelOut` marks exhaustion of the
recursion budget and never occurs for adequate fuel. -/
inductive Res (α : Type) where
  | ok (value : α) (c : Container)
  | err (e : ResolutionError) (c : Container)
  | fuelOut
deriving DecidableEq

/-- Modelled from the spec: step 3 of the algorithm — a cache hit happens
only for a Singleton-lifetime binding with an existing cache entry. -/
def cacheHit (b : Binding) (c : Container) (t : Token) : Option Instance :=
  match b.lifetime with
  | .singleton => alookup t c.singletonCache
  | .transient => none

/-- Modelled from the spec: the captivity rule (§4.4) — a Singleton parent
must not directly depend on a Transient child. -/
def captiveViolation (parent child : Binding) : Bool :=
  parent.lifetime == .singleton && child.lifetime == .transient

/-- Modelled from the spec: step 6 — scan the direct dependencies in order
for the first edge violating the captivity rule, returning the offending
child token and its binding. -/
def findCaptive (c : Container) (parent : Binding) : List Token → Option (Token × Binding)
  | [] => none
  | d :: rest =>
    match alookup d c.registry with
    | none => findCaptive c parent rest
    | some db => if captiveViolation parent db then some (d, db) else findCaptive c parent rest

/-- Modelled from the spec: the cycle path reported by step 1 — the ordered
token sequence from the first occurrence of the re-entered token on the
resolution stack back to itself. -/
def cyclePath (stack : List Token) (t : Token) : List Token :=
  stack.dropWhile (fun s => !(s == t)) ++ [t]

mutual

/-- Modelled from the spec: the depth-first resolution algorithm (§4.3,
steps 1–10).  `stack` is the call-local resolution stack; `fuel` bounds the
recursion depth and is irrelevant when large enough. -/
def resolve : Nat → Container → List Token → Token → Res Instance
  | 0, _, _, _ => .fuelOut
  | fuel + 1, c, stack, token =>
    if token ∈ stack then
      .err (.circularDependency (cyclePath stack token)) c
    else
      match alookup token c.registry with
      | none => .err (.unregisteredDependency token) c
      | some binding =>
        match cacheHit binding c token with
        | some inst => .ok inst c
        | none =>
          match resolveMany fuel c (stack ++ [token]) binding.dependencyTokens with
          | .fuelOut => .fuelOut
          | .err e c' => .err e c'
          | .ok deps c' =>
            match findCaptive c' binding binding.dependencyTokens with
            | some (d, db) =>
              .err (.captiveDependency token binding.lifetime d db.lifetime) c'
            | none =>
              let inst : Instance :=
                ⟨c'.nextIid, binding.implementation, deps.map (fun i => i.iid)⟩
              match binding.lifetime with
              | .singleton =>
                .ok inst { c' with nextIid := c'.nextIid + 1,
                                   singletonCache := (token, inst) :: c'.singletonCache }
              | .transient =>
                .ok inst { c' with nextIid := c'.nextIid + 1 }

/-- Modelled from the spec: step 5 — resolve the dependency tokens in
declared order, short-circuiting on the first error. -/
def resolveMany : Nat → Container → List Token → List Token → Res (List Instance)
  | 0, _, _, _ => .fuelOut
  | _ + 1, c, _, [] => .ok [] c
  | fuel + 1, c, stack, d :: rest =>
    match resolve fuel c stack d with
    | .fuelOut => .fuelOut
    | .err e c' => .err e c'
    | .ok inst c' =>
      match resolveMany fuel c' stack rest with
      | .fuelOut => .fuelOut
      | .err e c'' => .err e c''
      | .ok insts c'' => .ok (inst :: insts) c''

end

/-- Fuel budget sufficient for any resolution over the given registry: the
stack only ever holds distinct registered tokens, so depth is bounded by the
registry size and breadth by each binding's dependency count. -/
def bindingsFuel : List (Token × Binding) → Nat
  | [] => 2
  | (_, b) :: rest => bindingsFuel rest + b.dependencyTokens.length + 2

/-- Fuel budget for a top-level resolution on a container. -/
def containerFuel (c : Container) : Nat := bindingsFuel c.registry

/-- Modelled from the spec: the public `resolve(token)` entry point — runs
the resolver with an empty call-local resolution stack (§4.5). -/
def resolveTop (c : Container) (t : Token) : Res Instance :=
  resolve (containerFuel c) c [] t

/-- Whether a resolution outcome is a success. -/
def Res.isOk {α : Type} : Res α → Bool
  | .ok _ _ => true
  | .err _ _ => false
  | .fuelOut => false

/-- Modelled from the spec: the registration error taxonomy (§7) —
`DuplicateBindingError` on re-registering a bound token. -/
inductive RegistrationError where
  | duplicateBinding (token : Token)
deriving DecidableEq

/-- Outcome of a registration attempt: the updated container, or an error
leaving the container untouched. -/
inductive RegResult where
  | ok (c : Container)
  | err (e : RegistrationError)
deriving DecidableEq

/-- Modelled from the spec: `Registry.register` (§4.2) — fails with
`DuplicateBindingError` if the token already has a Binding in this
container, otherwise stores the Binding. -/
def register (c : Container) (token : Token) (b : Binding) : RegResult :=
  match alookup token c.registry with
  | some _ => .err (.duplicateBinding token)
  | none => .ok { c with registry := (token, b) :: c.registry }

/-- Modelled from the spec: `registerSingleton` (§4.5) builds a
Singleton-lifetime Binding from the implementation constructor and its
externally discovered dependency list, and delegates to `register`. -/
def registerSingleton (c : Container) (token : Token) (implementation : Nat)
    (deps : List Token) : RegResult :=
  register c token ⟨implementation, .singleton, deps⟩

/-- Modelled from the spec: `registerTransient` (§4.5), as
`registerSingleton` but with Transient lifetime. -/
def registerTransient (c : Container) (token : Token) (implementation : Nat)
    (deps : List Token) : RegResult :=
  register c token ⟨implementation, .transient, deps⟩

/-- Modelled from the spec: `createDependencyToken(constructor)` — the
canonical Token for a constructor, an identity projection (constructors
are already unique identities, §4.1). -/
def createDependencyToken (ctor : Nat) : Token := Token.ctor ctor

/-- Modelled from the spec: resolving by constructor resolves the
constructor's canonical token. -/
def resolveConstructor (c : Container) (ctor : Nat) : Res Instance :=
  resolveTop c (createDependencyToken ctor)

/-- Modelled from the spec: the single-argument `registerSingleton(C)`
overload — the constructor serves as both registration key and
implementation. -/
def registerSingletonCtor (c : Container) (ctor : Nat) (deps : List Token) : RegResult :=
  registerSingleton c (createDependencyToken ctor) ctor deps

/-- Modelled from the spec: container identifiers for the process-wide
Container Registry — `none` is the reserved default identifier, `some k`
a caller-supplied identifier. -/
abbrev ContainerId := Option Nat

/-- Modelled from the spec: a freshly created, empty Container whose object
identity is `cid`. -/
def emptyContainer (cid : Nat) : Container := ⟨cid, [], [], 0⟩

/-- Modelled from the spec: the process-wide Container Registry (§4.6) — a
mapping from identifier to Container, at most one Container per identifier,
created lazily; `nextCid` numbers container object identities. -/
structure ContainerStore where
  containers : List (ContainerId × Container)
  nextCid : Nat
deriving DecidableEq

/-- Modelled from the spec: `Container.of(id?)` (§4.6) — returns the
existing Container for the identifier, creating and caching an empty one
on first use. -/
def ContainerStore.of (s : ContainerStore) (i : ContainerId) : Container × ContainerStore :=
  match alookup i s.containers with
  | some c => (c, s)
  | none => (emptyContainer s.nextCid,
      ⟨(i, emptyContainer s.nextCid) :: s.containers, s.nextCid + 1⟩)

/-- Replace the Container stored under identifier `i`. -/
def replaceAt (i : ContainerId) (c : Container) :
    List (ContainerId × Container) → List (ContainerId × Container)
  | [] => []
  | (j, cj) :: rest => if j = i then (j, c) :: rest else (j, cj) :: replaceAt i c rest

/-- Outcome of a registration routed through the process-wide registry. -/
inductive StoreRegResult where
  | ok (s : ContainerStore)
  | err (e : RegistrationError)
deriving DecidableEq

/-- Modelled from the spec: registering a Binding into the Container held
under identifier `i` in the process-wide registry (creating that Container
on first use); on success the stored Container is updated in place. -/
def ContainerStore.registerIn (s : ContainerStore) (i : ContainerId) (t : Token)
    (b : Binding) : StoreRegResult :=
  match register (s.of i).1 t b with
  | .ok c' => .ok ⟨replaceAt i c' (s.of i).2.containers, (s.of i).2.nextCid⟩
  | .err e => .err e

/-- Process-wide registry well-formedness: stored container identities lie
below the identity counter, and distinct identifiers hold containers with
distinct identities. -/
def StoreWF (s : ContainerStore) : Prop :=
  (∀ p ∈ s.containers, p.2.cid < s.nextCid) ∧
    ∀ i j ci cj, i ≠ j → alookup i s.containers = some ci →
      alookup j s.containers = some cj → ci.cid ≠ cj.cid

/-- References to mapping values, giving the mapping returned by
`getResolvedSingletonDependencies` an identity distinct from the live
cache so that copy-versus-alias is expressible. -/
abbrev SnapshotRef := Nat

/-- A heap of mapping cells: reference → singleton-cache contents. -/
structure SnapshotHeap where
  cells : List (SnapshotRef × List (Token × Instance))
  next : SnapshotRef
deriving DecidableEq

/-- Read the mapping stored at a reference. -/
def SnapshotHeap.read (h : SnapshotHeap) (r : SnapshotRef) : List (Token × Instance) :=
  (alookup r h.cells).getD []

/-- Mutate the mapping stored at a reference. -/
def SnapshotHeap.write (h : SnapshotHeap) (r : SnapshotRef)
    (v : List (Token × Instance)) : SnapshotHeap :=
  ⟨(r, v) :: h.cells, h.next⟩

/-- Modelled from the spec: `getResolvedSingletonDependencies()` (§4.5) —
returns a snapshot (copy) of the current singleton-cache contents in a
freshly allocated mapping cell, never a reference to the live mapping. -/
def getResolvedSingletonDependencies (h : SnapshotHeap) (live : SnapshotRef) :
    SnapshotRef × SnapshotHeap :=
  (h.next, ⟨(h.next, h.read live) :: h.cells, h.next + 1⟩)

/-! Basic lookup lemmas. -/

theorem alookup_nil {κ α : Type} [DecidableEq κ] (k : κ) :
    alookup k ([] : List (κ × α)) = none := rfl

theorem alookup_cons_eq {κ α : Type} [DecidableEq κ] (k : κ) (v : α) (l : List (κ × α)) :
    alookup k ((k, v) :: l) = some v := by
  simp [alookup]

theorem alookup_cons_ne {κ α : Type} [DecidableEq κ] {k' k : κ} (v : α) (l : List (κ × α))
    (h : k' ≠ k) : alookup k ((k', v) :: l) = alookup k l := by
  simp [alookup, h]

/-! State-evolution invariants of the resolver. -/

/-- The singleton cache agrees at token `s` between two container states. -/
def cacheSame (s : Token) (c c' : Container) : Prop :=
  alookup s c'.singletonCache = alookup s c.singletonCache

/-- Resolution-step state evolution: the registry and container identity
never change, the instance counter never decreases, and any token whose
cache entry changed is registered with Singleton lifetime. -/
def Evo (c c' : Container) : Prop :=
  c'.registry = c.registry ∧ c'.cid = c.cid ∧ c.nextIid ≤ c'.nextIid ∧
    ∀ s : Token, ¬ cacheSame s c c' →
      ∃ b, alookup s c.registry = some b ∧ b.lifetime = .singleton

theorem cacheSame_refl (s : Token) (c : Container) : cacheSame s c c := rfl

theorem cacheSame_trans {s : Token} {c c₁ c₂ : Container}
    (h1 : cacheSame s c c₁) (h2 : cacheSame s c₁ c₂) : cacheSame s c c₂ :=
  h2.trans h1

theorem Evo.refl (c : Container) : Evo c c :=
  ⟨rfl, rfl, Nat.le_refl _, fun s hs => absurd (cacheSame_refl s c) hs⟩

theorem Evo.trans {c c₁ c₂ : Container} (h1 : Evo c c₁) (h2 : Evo c₁ c₂) : Evo c c₂ := by
  obtain ⟨hr1, hc1, hn1, hs1⟩ := h1
  obtain ⟨hr2, hc2, hn2, hs2⟩ := h2
  refine ⟨hr2.trans hr1, hc2.trans hc1, hn1.trans hn2, ?_⟩
  intro s hs
  by_cases h1' : cacheSame s c c₁
  · have h2' : ¬ cacheSame s c₁ c₂ := fun h => hs (cacheSame_trans h1' h)
    obtain ⟨b, hb, hbl⟩ := hs2 s h2'
    exact ⟨b, by rw [hr1] at hb; exact hb, hbl⟩
  · exact hs1 s h1'

/-- Master state-evolution lemma for `resolve` and `resolveMany`: on any
completed outcome (success or error) the container evolves per `Evo`, cache
entries of tokens on the resolution stack are untouched, and on an error the
current token's cache entry is untouched as well. -/
theorem resolve_resolveMany_evolve :
    ∀ fuel : Nat,
      (∀ c stack t,
        (∀ v c', resolve fuel c stack t = .ok v c' →
          Evo c c' ∧ ∀ s ∈ stack, cacheSame s c c') ∧
        (∀ e c', resolve fuel c stack t = .err e c' →
          Evo c c' ∧ ∀ s : Token, (s ∈ stack ∨ s = t) → cacheSame s c c')) ∧
      (∀ c stack ts,
        (∀ vs c', resolveMany fuel c stack ts = .ok vs c' →
          Evo c c' ∧ ∀ s ∈ stack, cacheSame s c c') ∧
        (∀ e c', resolveMany fuel c stack ts = .err e c' →
          Evo c c' ∧ ∀ s ∈ stack, cacheSame s c c')) := by
  intro fuel
  induction fuel with
  | zero =>
    constructor
    · intro c stack t
      constructor
      · intro v c' h; simp [resolve] at h
      · intro e c' h; simp [resolve] at h
    · intro c stack ts
      constructor
      · intro vs c' h; simp [resolveMany] at h
      · intro e c' h; simp [resolveMany] at h
  | succ n ih =>
    obtain ⟨ihres, ihmany⟩ := ih
    constructor
    · -- resolve (n+1)
      intro c stack t
      constructor
      · -- ok case
        intro v c' h
        simp only [resolve] at h
        split at h
        · exact absurd h (by simp)
        next hmem =>
          split at h
          · exact absurd h (by simp)
          next binding hreg =>
            split at h
            next inst hch =>
              obtain ⟨hv, hc⟩ := Res.ok.inj h
              subst hv; subst hc
              exact ⟨Evo.refl c, fun s _ => cacheSame_refl s c⟩
            next hch =>
              split at h
              · exact absurd h (by simp)
              · exact absurd h (by simp)
              next deps c₁ hmany =>
                split at h
                · exact absurd h (by simp)
                next hcap =>
                  have hev := ((ihmany c (stack ++ [t]) binding.dependencyTokens).1 deps c₁ hmany)
                  obtain ⟨hevo, hstk⟩ := hev
                  split at h
                  next hlife =>
                    obtain ⟨hv, hc⟩ := Res.ok.inj h
                    subst hv; subst hc
                    constructor
                    · obtain ⟨hr, hcid, hn, hcw⟩ := hevo
                      refine ⟨hr, hcid, hn.trans (Nat.le_succ _), ?_⟩
                      intro s hs
                      by_cases hst : s = t
                      · subst hst
                        exact ⟨binding, hreg, hlife⟩
                      · have : ¬ cacheSame s c c₁ := by
                          intro hsame
                          apply hs
                          show alookup s ((t, _) :: c₁.singletonCache) = _
                          rw [alookup_cons_ne _ _ (fun hh => hst hh.symm)]
                          exact hsame
                        exact hcw s this
                    · intro s hsstack
                      have hst : s ≠ t := fun hh => hmem (hh ▸ hsstack)
                      have h1 : cacheSame s c c₁ :=
                        hstk s (by simp [hsstack])
                      show alookup s ((t, _) :: c₁.singletonCache) = _
                      rw [alookup_cons_ne _ _ (fun hh => hst hh.symm)]
                      exact h1
                  next hlife =>
                    obtain ⟨hv, hc⟩ := Res.ok.inj h
                    subst hv; subst hc
                    constructor
                    · obtain ⟨hr, hcid, hn, hcw⟩ := hevo
                      exact ⟨hr, hcid, hn.trans (Nat.le_succ _), fun s hs => hcw s hs⟩
                    · intro s hsstack
                      exact hstk s (by simp [hsstack])
      · -- err case
        intro e c' h
        simp only [resolve] at h
        split at h
        next hmem =>
          obtain ⟨he, hc⟩ := Res.err.inj h
          subst hc
          exact ⟨Evo.refl c, fun s _ => cacheSame_refl s c⟩
        next hmem =>
          split at h
          next hreg =>
            obtain ⟨he, hc⟩ := Res.err.inj h
            subst hc
            exact ⟨Evo.refl c, fun s _ => cacheSame_refl s c⟩
          next binding hreg =>
            split at h
            next inst hch => exact absurd h (by simp)
            next hch =>
              split at h
              · exact absurd h (by simp)
              next e₁ c₁ hmany =>
                obtain ⟨he, hc⟩ := Res.err.inj h
                subst hc
                have hev := ((ihmany c (stack ++ [t]) binding.dependencyTokens).2 e₁ c₁ hmany)
                obtain ⟨hevo, hstk⟩ := hev
                refine ⟨hevo, ?_⟩
                intro s hs
                apply hstk
                rcases hs with hs | hs
                · simp [hs]
                · simp [hs]
              next deps c₁ hmany =>
                split at h
                next hcap =>
                  obtain ⟨he, hc⟩ := Res.err.inj h
                  subst hc
                  have hev := ((ihmany c (stack ++ [t]) binding.dependencyTokens).1 deps c₁ hmany)
                  obtain ⟨hevo, hstk⟩ := hev
                  refine ⟨hevo, ?_⟩
                  intro s hs
                  apply hstk
                  rcases hs with hs | hs
                  · simp [hs]
                  · simp [hs]
                next hcap =>
                  split at h
                  · exact absurd h (by simp)
                  · exact absurd h (by simp)
    · -- resolveMany (n+1)
      intro c stack ts
      match ts with
      | [] =>
        constructor
        · intro vs c' h
          simp only [resolveMany] at h
          obtain ⟨hv, hc⟩ := Res.ok.inj h
          subst hc
          exact ⟨Evo.refl c, fun s _ => cacheSame_refl s c⟩
        · intro e c' h
          simp [resolveMany] at h
      | d :: rest =>
        constructor
        · intro vs c' h
          simp only [resolveMany] at h
          split at h
          · exact absurd h (by simp)
          next e₁ c₁ hres => exact absurd h (by simp)
          next inst c₁ hres =>
            split at h
            · exact absurd h (by simp)
            next e₂ c₂ hmany => exact absurd h (by simp)
            next insts c₂ hmany =>
              obtain ⟨hv, hc⟩ := Res.ok.inj h
              subst hc
              have h1 := ((ihres c stack d).1 inst c₁ hres)
              have h2 := ((ihmany c₁ stack rest).1 insts c₂ hmany)
              exact ⟨h1.1.trans h2.1,
                fun s hs => cacheSame_trans (h1.2 s hs) (h2.2 s hs)⟩
        · intro e c' h
          simp only [resolveMany] at h
          split at h
          · exact absurd h (by simp)
          next e₁ c₁ hres =>
            obtain ⟨he, hc⟩ := Res.err.inj h
            subst hc
            have h1 := ((ihres c stack d).2 e₁ c₁ hres)
            exact ⟨h1.1, fun s hs => h1.2 s (Or.inl hs)⟩
          next inst c₁ hres =>
            split at h
            · exact absurd h (by simp)
            next e₂ c₂ hmany =>
              obtain ⟨he, hc⟩ := Res.err.inj h
              subst hc
              have h1 := ((ihres c stack d).1 inst c₁ hres)
              have h2 := ((ihmany c₁ stack rest).2 e₂ c₂ hmany)
              exact ⟨h1.1.trans h2.1,
                fun s hs => cacheSame_trans (h1.2 s hs) (h2.2 s hs)⟩
            next insts c₂ hmany => exact absurd h (by simp)

/-- A successful resolution evolves the container per `Evo`. -/
theorem resolve_ok_evolve {fuel : Nat} {c : Container} {stack : List Token} {t : Token}
    {v : Instance} {c' : Container} (h : resolve fuel c stack t = .ok v c') : Evo c c' :=
  (((resolve_resolveMany_evolve fuel).1 c stack t).1 v c' h).1

/-- A failed resolution evolves the container per `Evo`. -/
theorem resolve_err_evolve {fuel : Nat} {c : Container} {stack : List Token} {t : Token}
    {e : ResolutionError} {c' : Container} (h : resolve fuel c stack t = .err e c') : Evo c c' :=
  (((resolve_resolveMany_evolve fuel).1 c stack t).2 e c' h).1

/-- After a successful resolution of a Singleton-bound token, the cache
holds the returned instance under that token. -/
theorem resolve_ok_singleton_cached {fuel : Nat} {c : Container} {stack : List Token}
    {t : Token} {b : Binding} {v : Instance} {c' : Container}
    (hreg : alookup t c.registry = some b) (hlife : b.lifetime = .singleton)
    (h : resolve fuel c stack t = .ok v c') :
    alookup t c'.singletonCache = some v := by
  match fuel with
  | 0 => simp [resolve] at h
  | n + 1 =>
    simp only [resolve] at h
    split at h
    · exact absurd h (by simp)
    next hmem =>
      split at h
      · exact absurd h (by simp)
      next binding hreg' =>
        have hbb : binding = b := by rw [hreg'] at hreg; exact Option.some.inj hreg
        subst hbb
        split at h
        next inst hch =>
          obtain ⟨hv, hc⟩ := Res.ok.inj h
          subst hv; subst hc
          rw [cacheHit, hlife] at hch
          exact hch
        next hch =>
          split at h
          · exact absurd h (by simp)
          · exact absurd h (by simp)
          next deps c₁ hmany =>
            split at h
            · exact absurd h (by simp)
            next hcap =>
              split at h
              next hlife' =>
                obtain ⟨hv, hc⟩ := Res.ok.inj h
                subst hv; subst hc
                exact alookup_cons_eq t _ _
              next hlife' => rw [hlife] at hlife'; exact absurd hlife' (by simp)

/-- A successful resolution of a Transient-bound token constructs a fresh
instance: its identity is at least the incoming counter, and the outgoing
counter is one past it. -/
theorem resolve_ok_transient_fresh {fuel : Nat} {c : Container} {stack : List Token}
    {t : Token} {b : Binding} {v : Instance} {c' : Container}
    (hreg : alookup t c.registry = some b) (hlife : b.lifetime = .transient)
    (h : resolve fuel c stack t = .ok v c') :
    c.nextIid ≤ v.iid ∧ c'.nextIid = v.iid + 1 := by
  match fuel with
  | 0 => simp [resolve] at h
  | n + 1 =>
    simp only [resolve] at h
    split at h
    · exact absurd h (by simp)
    next hmem =>
      split at h
      · exact absurd h (by simp)
      next binding hreg' =>
        have hbb : binding = b := by rw [hreg'] at hreg; exact Option.some.inj hreg
        subst hbb
        split at h
        next inst hch =>
          rw [cacheHit, hlife] at hch
          exact absurd hch (by simp)
        next hch =>
          split at h
          · exact absurd h (by simp)
          · exact absurd h (by simp)
          next deps c₁ hmany =>
            have hevo : Evo c c₁ :=
              (((resolve_resolveMany_evolve n).2 c (stack ++ [t]) _).1 deps c₁ hmany).1
            split at h
            · exact absurd h (by simp)
            next hcap =>
              split at h
              next hlife' => exact absurd hlife' (by rw [hlife]; simp)
              next hlife' =>
                obtain ⟨hv, hc⟩ := Res.ok.inj h
                subst hc
                constructor
                · rw [← hv]; exact hevo.2.2.1
                · rw [← hv]

/-- Resolving a Singleton-bound token with an existing cache entry returns
the cached instance and leaves the container untouched, for any positive
fuel. -/
theorem resolve_cache_hit {c : Container} {t : Token} {b : Binding} {v : Instance}
    {stack : List Token} {fuel : Nat}
    (hmem : t ∉ stack) (hreg : alookup t c.registry = some b)
    (hlife : b.lifetime = .singleton) (hcache : alookup t c.singletonCache = some v)
    (hfuel : 0 < fuel) : resolve fuel c stack t = .ok v c := by
  match fuel with
  | 0 => exact absurd hfuel (by simp)
  | n + 1 =>
    simp [resolve, hmem, hreg, cacheHit, hlife, hcache]

/-- Resolving a token with no Binding in the registry fails with
`unregisteredDependency` and leaves the container untouched, for any
positive fuel. -/
theorem resolve_unregistered {c : Container} {t : Token} {stack : List Token} {fuel : Nat}
    (hmem : t ∉ stack) (hreg : alookup t c.registry = none)
    (hfuel : 0 < fuel) : resolve fuel c stack t = .err (.unregisteredDependency t) c := by
  match fuel with
  | 0 => exact absurd hfuel (by simp)
  | n + 1 =>
    simp [resolve, hmem, hreg]

/-- The fuel budget is always positive. -/
theorem bindingsFuel_pos : ∀ l : List (Token × Binding), 2 ≤ bindingsFuel l
  | [] => Nat.le_refl 2
  | (_, b) :: rest => by
    show 2 ≤ bindingsFuel rest + b.dependencyTokens.length + 2
    omega

theorem containerFuel_pos (c : Container) : 0 < containerFuel c :=
  Nat.lt_of_lt_of_le (by omega) (bindingsFuel_pos c.registry)

/-- A container with a registered token has fuel budget at least 4. -/
theorem containerFuel_ge_four {c : Container} {t : Token} {b : Binding}
    (hreg : alookup t c.registry = some b) : 4 ≤ containerFuel c := by
  match hr : c.registry with
  | [] => rw [hr] at hreg; simp [alookup] at hreg
  | (t', b') :: rest =>
    show 4 ≤ bindingsFuel c.registry
    rw [hr]
    show 4 ≤ bindingsFuel rest + b'.dependencyTokens.length + 2
    have := bindingsFuel_pos rest
    omega

/-- A token with no cache entry never produces a cache hit, whatever the
binding's lifetime. -/
theorem cacheHit_none {b : Binding} {c : Container} {t : Token}
    (h : alookup t c.singletonCache = none) : cacheHit b c t = none := by
  rw [cacheHit]
  match b.lifetime with
  | .singleton => exact h
  | .transient => rfl

/-! Claim theorems. -/

/-- C1: for every Token bound with Singleton lifetime, once `resolve`
succeeds the instance is cached, and a second independent `resolve` call on
the resulting container succeeds, returns the same instance identity, and
leaves the container unchanged (the cached instance is returned). -/
theorem singleton_identity (c : Container) (t : Token) (b : Binding)
    (hreg : alookup t c.registry = some b) (hlife : b.lifetime = .singleton)
    (inst : Instance) (c' : Container)
    (h1 : resolveTop c t = .ok inst c') :
    resolveTop c' t = .ok inst c' := by
  have hevo : Evo c c' := resolve_ok_evolve h1
  have hreg' : alookup t c'.registry = some b := by rw [hevo.1]; exact hreg
  have hcache : alookup t c'.singletonCache = some inst :=
    resolve_ok_singleton_cached hreg hlife h1
  exact resolve_cache_hit (by simp) hreg' hlife hcache (containerFuel_pos c')

/-- Witness for C1 at a concrete container with one Singleton binding. -/
theorem singleton_identity_witness :
    resolveTop ⟨0, [(Token.symbol 0, ⟨5, .singleton, []⟩)],
        [(Token.symbol 0, ⟨0, 5, []⟩)], 1⟩ (Token.symbol 0)
      = .ok ⟨0, 5, []⟩
        ⟨0, [(Token.symbol 0, ⟨5, .singleton, []⟩)], [(Token.symbol 0, ⟨0, 5, []⟩)], 1⟩ :=
  singleton_identity ⟨0, [(Token.symbol 0, ⟨5, .singleton, []⟩)], [], 0⟩
    (Token.symbol 0) ⟨5, .singleton, []⟩ rfl rfl ⟨0, 5, []⟩
    ⟨0, [(Token.symbol 0, ⟨5, .singleton, []⟩)], [(Token.symbol 0, ⟨0, 5, []⟩)], 1⟩
    (by decide)

/-- C2: for every Token bound with Transient lifetime, two consecutive
successful `resolve` calls return distinct instance identities, and no
entry for the token is ever stored in the singleton cache by either call. -/
theorem transient_freshness (c : Container) (t : Token) (b : Binding)
    (hreg : alookup t c.registry = some b) (hlife : b.lifetime = .transient)
    (i1 i2 : Instance) (c1 c2 : Container)
    (h1 : resolveTop c t = .ok i1 c1) (h2 : resolveTop c1 t = .ok i2 c2) :
    i1.iid ≠ i2.iid
    ∧ alookup t c1.singletonCache = alookup t c.singletonCache
    ∧ alookup t c2.singletonCache = alookup t c.singletonCache := by
  have hevo1 : Evo c c1 := resolve_ok_evolve h1
  have hreg1 : alookup t c1.registry = some b := by rw [hevo1.1]; exact hreg
  have hevo2 : Evo c1 c2 := resolve_ok_evolve h2
  have hf1 := resolve_ok_transient_fresh hreg hlife h1
  have hf2 := resolve_ok_transient_fresh hreg1 hlife h2
  have hlt : i1.iid < i2.iid := by omega
  have hcs1 : cacheSame t c c1 := by
    by_contra hne
    obtain ⟨b', hb', hbl'⟩ := hevo1.2.2.2 t hne
    rw [hreg] at hb'
    rw [Option.some.inj hb'] at hlife
    rw [hlife] at hbl'
    exact absurd hbl' (by simp)
  have hcs2 : cacheSame t c1 c2 := by
    by_contra hne
    obtain ⟨b', hb', hbl'⟩ := hevo2.2.2.2 t hne
    rw [hreg1] at hb'
    rw [Option.some.inj hb'] at hlife
    rw [hlife] at hbl'
    exact absurd hbl' (by simp)
  exact ⟨Nat.ne_of_lt hlt, hcs1, cacheSame_trans hcs1 hcs2⟩

/-- Witness for C2 at a concrete container with one Transient binding. -/
theorem transient_freshness_witness :
    (Instance.iid ⟨0, 5, []⟩ ≠ Instance.iid ⟨1, 5, []⟩)
    ∧ alookup (Token.symbol 0)
        (Container.singletonCache ⟨0, [(Token.symbol 0, ⟨5, .transient, []⟩)], [], 1⟩)
      = alookup (Token.symbol 0)
        (Container.singletonCache ⟨0, [(Token.symbol 0, ⟨5, .transient, []⟩)], [], 0⟩)
    ∧ alookup (Token.symbol 0)
        (Container.singletonCache ⟨0, [(Token.symbol 0, ⟨5, .transient, []⟩)], [], 2⟩)
      = alookup (Token.symbol 0)
        (Container.singletonCache ⟨0, [(Token.symbol 0, ⟨5, .transient, []⟩)], [], 0⟩) :=
  transient_freshness ⟨0, [(Token.symbol 0, ⟨5, .transient, []⟩)], [], 0⟩
    (Token.symbol 0) ⟨5, .transient, []⟩ rfl rfl ⟨0, 5, []⟩ ⟨1, 5, []⟩
    ⟨0, [(Token.symbol 0, ⟨5, .transient, []⟩)], [], 1⟩
    ⟨0, [(Token.symbol 0, ⟨5, .transient, []⟩)], [], 2⟩
    (by decide) (by decide)

/-- C7: failed resolution is atomic — when `resolve` fails with any
`ResolutionError`, the singleton cache entry of the failing token and of
every not-yet-completed ancestor (the tokens on the resolution stack) is
exactly what it was before the call; the resolution stack itself is
call-local and is gone when the top-level call returns. -/
theorem error_atomicity (fuel : Nat) (c : Container) (stack : List Token) (t : Token)
    (e : ResolutionError) (c' : Container)
    (h : resolve fuel c stack t = .err e c') :
    alookup t c'.singletonCache = alookup t c.singletonCache
    ∧ ∀ s ∈ stack, alookup s c'.singletonCache = alookup s c.singletonCache := by
  have hm := (((resolve_resolveMany_evolve fuel).1 c stack t).2 e c' h).2
  exact ⟨hm t (Or.inr rfl), fun s hs => hm s (Or.inl hs)⟩

/-- C3: for any registry whose three (distinct) tokens form the dependency
cycle A→B→C→A, with none of them in the singleton cache, `resolve(A)` fails
with `CircularDependencyError` whose path is exactly [A, B, C, A], whatever
the bindings' lifetimes and implementations; the container is untouched. -/
theorem cycle_detection (tA tB tC : Token) (iA iB iC : Nat) (lA lB lC : Lifetime)
    (hAB : tA ≠ tB) (hAC : tA ≠ tC) (hBC : tB ≠ tC) (cid n : Nat) :
    resolveTop ⟨cid, [(tA, ⟨iA, lA, [tB]⟩), (tB, ⟨iB, lB, [tC]⟩), (tC, ⟨iC, lC, [tA]⟩)], [], n⟩ tA
      = .err (.circularDependency [tA, tB, tC, tA])
          ⟨cid, [(tA, ⟨iA, lA, [tB]⟩), (tB, ⟨iB, lB, [tC]⟩), (tC, ⟨iC, lC, [tA]⟩)], [], n⟩ := by
  have hBA := hAB.symm
  have hCA := hAC.symm
  have hCB := hBC.symm
  show resolve _ _ [] tA = _
  have hf : containerFuel
      ⟨cid, [(tA, ⟨iA, lA, [tB]⟩), (tB, ⟨iB, lB, [tC]⟩), (tC, ⟨iC, lC, [tA]⟩)], [], n⟩ = 11 := by
    simp [containerFuel, bindingsFuel]
  rw [hf]
  simp [resolve, resolveMany, alookup, cacheHit_none, cyclePath, hAB, hAC, hBC, hBA, hCA, hCB,
    List.dropWhile]

/-- Witness for C3 at three concrete tokens with Singleton lifetimes. -/
theorem cycle_detection_witness :
    resolveTop ⟨0, [(Token.symbol 0, ⟨0, .singleton, [Token.symbol 1]⟩),
        (Token.symbol 1, ⟨1, .singleton, [Token.symbol 2]⟩),
        (Token.symbol 2, ⟨2, .singleton, [Token.symbol 0]⟩)], [], 0⟩ (Token.symbol 0)
      = .err (.circularDependency
          [Token.symbol 0, Token.symbol 1, Token.symbol 2, Token.symbol 0])
        ⟨0, [(Token.symbol 0, ⟨0, .singleton, [Token.symbol 1]⟩),
          (Token.symbol 1, ⟨1, .singleton, [Token.symbol 2]⟩),
          (Token.symbol 2, ⟨2, .singleton, [Token.symbol 0]⟩)], [], 0⟩ :=
  cycle_detection (Token.symbol 0) (Token.symbol 1) (Token.symbol 2) 0 1 2
    .singleton .singleton .singleton (by decide) (by decide) (by decide) 0 0

/-- C4: when a Singleton-lifetime parent directly depends on a
Transient-lifetime child, resolving the parent fails with
`CaptiveDependencyError` carrying the parent and child tokens with their
lifetimes; for every other lifetime combination on the direct edge
(Transient→Singleton and same-lifetime), resolution succeeds — the
captivity check does not fail it. -/
theorem captivity_detection (tP tD : Token) (iP iD : Nat) (hPD : tP ≠ tD) (cid n : Nat) :
    (resolveTop ⟨cid, [(tP, ⟨iP, .singleton, [tD]⟩), (tD, ⟨iD, .transient, []⟩)], [], n⟩ tP
       = .err (.captiveDependency tP .singleton tD .transient)
           ⟨cid, [(tP, ⟨iP, .singleton, [tD]⟩), (tD, ⟨iD, .transient, []⟩)], [], n + 1⟩)
    ∧ ∀ lP lD : Lifetime, ¬(lP = .singleton ∧ lD = .transient) →
        Res.isOk (resolveTop ⟨cid, [(tP, ⟨iP, lP, [tD]⟩), (tD, ⟨iD, lD, []⟩)], [], n⟩ tP)
          = true := by
  have hDP := hPD.symm
  constructor
  · show resolve (containerFuel _) _ [] tP = _
    have hf : containerFuel
        ⟨cid, [(tP, ⟨iP, .singleton, [tD]⟩), (tD, ⟨iD, .transient, []⟩)], [], n⟩ = 7 := by
      simp [containerFuel, bindingsFuel]
    rw [hf]
    simp [resolve, resolveMany, alookup, cacheHit, findCaptive, captiveViolation, hPD, hDP]
  · intro lP lD hn
    show Res.isOk (resolve (containerFuel _) _ [] tP) = true
    have hf : containerFuel
        ⟨cid, [(tP, ⟨iP, lP, [tD]⟩), (tD, ⟨iD, lD, []⟩)], [], n⟩ = 7 := by
      simp [containerFuel, bindingsFuel]
    rw [hf]
    cases lP <;> cases lD
    · simp [resolve, resolveMany, alookup, cacheHit, findCaptive, captiveViolation,
        hPD, hDP, Res.isOk]
    · exact absurd ⟨rfl, rfl⟩ hn
    · simp [resolve, resolveMany, alookup, cacheHit, findCaptive, captiveViolation,
        hPD, hDP, Res.isOk]
    · simp [resolve, resolveMany, alookup, cacheHit, findCaptive, captiveViolation,
        hPD, hDP, Res.isOk]

/-- Witness for C4 at two concrete tokens: the Singleton→Transient edge
fails with the captive error, and the Transient→Singleton edge resolves. -/
theorem captivity_detection_witness :
    (resolveTop ⟨0, [(Token.symbol 0, ⟨10, .singleton, [Token.symbol 1]⟩),
        (Token.symbol 1, ⟨11, .transient, []⟩)], [], 0⟩ (Token.symbol 0)
      = .err (.captiveDependency (Token.symbol 0) .singleton (Token.symbol 1) .transient)
        ⟨0, [(Token.symbol 0, ⟨10, .singleton, [Token.symbol 1]⟩),
          (Token.symbol 1, ⟨11, .transient, []⟩)], [], 1⟩)
    ∧ Res.isOk (resolveTop ⟨0, [(Token.symbol 0, ⟨10, .transient, [Token.symbol 1]⟩),
        (Token.symbol 1, ⟨11, .singleton, []⟩)], [], 0⟩ (Token.symbol 0)) = true :=
  ⟨(captivity_detection (Token.symbol 0) (Token.symbol 1) 10 11 (by decide) 0 0).1,
   (captivity_detection (Token.symbol 0) (Token.symbol 1) 10 11 (by decide) 0 0).2
     .transient .singleton (by simp)⟩

/-- C5: resolving a token with no Binding fails with
`UnregisteredDependencyError` naming it; resolving a registered Binding
whose first declared dependency token is unregistered fails with
`UnregisteredDependencyError` naming that dependency token; in both cases
the container is returned untouched — no fallback instance is
substituted. -/
theorem missing_dependency (c1 c2 : Container) (t d : Token) (b : Binding) (rest : List Token)
    (h1 : alookup t c1.registry = none)
    (h2 : alookup t c2.registry = some b)
    (h3 : b.dependencyTokens = d :: rest)
    (h4 : alookup d c2.registry = none)
    (h5 : alookup t c2.singletonCache = none) :
    resolveTop c1 t = .err (.unregisteredDependency t) c1
    ∧ resolveTop c2 t = .err (.unregisteredDependency d) c2 := by
  constructor
  · exact resolve_unregistered (by simp) h1 (containerFuel_pos c1)
  · have hdt : d ≠ t := by
      intro heq; rw [heq] at h4; rw [h4] at h2; exact Option.noConfusion h2
    have hch : cacheHit b c2 t = none := cacheHit_none h5
    obtain ⟨m, hm⟩ : ∃ m, containerFuel c2 = m + 3 :=
      ⟨containerFuel c2 - 3, by have := containerFuel_ge_four h2; omega⟩
    show resolve (containerFuel c2) c2 [] t = _
    rw [hm]
    simp [resolve, resolveMany, h2, h3, h4, hch, hdt]

/-- Witness for C5: an unbound token in an empty container, and a binding
whose sole declared dependency is unregistered. -/
theorem missing_dependency_witness :
    resolveTop ⟨0, [], [], 0⟩ (Token.symbol 0)
      = .err (.unregisteredDependency (Token.symbol 0)) ⟨0, [], [], 0⟩
    ∧ resolveTop ⟨0, [(Token.symbol 0, ⟨5, .singleton, [Token.symbol 1]⟩)], [], 0⟩
        (Token.symbol 0)
      = .err (.unregisteredDependency (Token.symbol 1))
        ⟨0, [(Token.symbol 0, ⟨5, .singleton, [Token.symbol 1]⟩)], [], 0⟩ :=
  missing_dependency ⟨0, [], [], 0⟩
    ⟨0, [(Token.symbol 0, ⟨5, .singleton, [Token.symbol 1]⟩)], [], 0⟩
    (Token.symbol 0) (Token.symbol 1) ⟨5, .singleton, [Token.symbol 1]⟩ []
    rfl rfl rfl rfl rfl

/-- C6: registering the same token a second time — via `registerSingleton`
or `registerTransient`, with any implementation and dependency list — fails
with `DuplicateBindingError`, and the first Binding remains intact: the
registry still maps the token to the originally registered Binding (the
failed registration returns no modified container). -/
theorem duplicate_registration (c c1 : Container) (t : Token) (b1 : Binding)
    (impl2 : Nat) (deps2 : List Token)
    (h1 : register c t b1 = .ok c1) :
    registerSingleton c1 t impl2 deps2 = .err (.duplicateBinding t)
    ∧ registerTransient c1 t impl2 deps2 = .err (.duplicateBinding t)
    ∧ alookup t c1.registry = some b1 := by
  rw [register] at h1
  split at h1
  · exact absurd h1 (by simp)
  next hnone =>
    have hc := RegResult.ok.inj h1
    subst hc
    have hl : alookup t ((t, b1) :: c.registry) = some b1 := alookup_cons_eq t b1 c.registry
    refine ⟨?_, ?_, hl⟩
    · rw [registerSingleton, register]
      simp only [hl]
    · rw [registerTransient, register]
      simp only [hl]

/-- Witness for C6 at a concrete first registration. -/
theorem duplicate_registration_witness :
    registerSingleton ⟨0, [(Token.symbol 0, ⟨5, .singleton, []⟩)], [], 0⟩
        (Token.symbol 0) 6 [] = .err (.duplicateBinding (Token.symbol 0))
    ∧ registerTransient ⟨0, [(Token.symbol 0, ⟨5, .singleton, []⟩)], [], 0⟩
        (Token.symbol 0) 6 [] = .err (.duplicateBinding (Token.symbol 0))
    ∧ alookup (Token.symbol 0)
        (Container.registry ⟨0, [(Token.symbol 0, ⟨5, .singleton, []⟩)], [], 0⟩)
      = some ⟨5, .singleton, []⟩ :=
  duplicate_registration ⟨0, [], [], 0⟩ ⟨0, [(Token.symbol 0, ⟨5, .singleton, []⟩)], [], 0⟩
    (Token.symbol 0) ⟨5, .singleton, []⟩ 6 [] (by decide)

/-- Witness for C7 at a concrete failing resolution with a nonempty
resolution stack and nonempty cache. -/
theorem error_atomicity_witness :
    alookup (Token.symbol 0)
        (Container.singletonCache ⟨0, [], [(Token.symbol 1, ⟨0, 7, []⟩)], 1⟩)
      = alookup (Token.symbol 0)
        (Container.singletonCache ⟨0, [], [(Token.symbol 1, ⟨0, 7, []⟩)], 1⟩)
    ∧ ∀ s ∈ [Token.symbol 1],
        alookup s (Container.singletonCache ⟨0, [], [(Token.symbol 1, ⟨0, 7, []⟩)], 1⟩)
          = alookup s (Container.singletonCache ⟨0, [], [(Token.symbol 1, ⟨0, 7, []⟩)], 1⟩) :=
  error_atomicity 1 ⟨0, [], [(Token.symbol 1, ⟨0, 7, []⟩)], 1⟩ [Token.symbol 1]
    (Token.symbol 0) (.unregisteredDependency (Token.symbol 0))
    ⟨0, [], [(Token.symbol 1, ⟨0, 7, []⟩)], 1⟩ (by decide)

/-- C8: `getResolvedSingletonDependencies` returns a snapshot copy — the
returned mapping cell is distinct from the live cache cell, initially holds
the same contents, and mutating it leaves the live cache contents (and
hence the outcome of any subsequent `resolve` call on the container)
unchanged. -/
theorem snapshot_isolation (h : SnapshotHeap) (live : SnapshotRef)
    (hlive : live < h.next) (c : Container) (t : Token)
    (hcache : c.singletonCache = h.read live) (v : List (Token × Instance)) :
    (getResolvedSingletonDependencies h live).1 ≠ live
    ∧ (getResolvedSingletonDependencies h live).2.read
        (getResolvedSingletonDependencies h live).1 = c.singletonCache
    ∧ ((getResolvedSingletonDependencies h live).2.write
        (getResolvedSingletonDependencies h live).1 v).read live = h.read live
    ∧ resolveTop { c with singletonCache :=
          ((getResolvedSingletonDependencies h live).2.write
            (getResolvedSingletonDependencies h live).1 v).read live } t
        = resolveTop c t := by
  have hne : h.next ≠ live := fun he => absurd (he ▸ hlive) (lt_irrefl _)
  have h3 : ((getResolvedSingletonDependencies h live).2.write
      (getResolvedSingletonDependencies h live).1 v).read live = h.read live := by
    show (alookup live ((h.next, v) :: (h.next, h.read live) :: h.cells)).getD [] = _
    rw [alookup_cons_ne _ _ hne, alookup_cons_ne _ _ hne]
    rfl
  refine ⟨hne, ?_, h3, ?_⟩
  · show (alookup h.next ((h.next, h.read live) :: h.cells)).getD [] = _
    rw [alookup_cons_eq, hcache]
    rfl
  · rw [h3, ← hcache]

/-- Witness for C8 at a concrete one-cell heap and a mutation writing a
spurious cache entry into the snapshot. -/
theorem snapshot_isolation_witness :
    (getResolvedSingletonDependencies ⟨[(0, [])], 1⟩ 0).1 ≠ 0
    ∧ (getResolvedSingletonDependencies ⟨[(0, [])], 1⟩ 0).2.read
        (getResolvedSingletonDependencies ⟨[(0, [])], 1⟩ 0).1
      = Container.singletonCache ⟨0, [], [], 0⟩
    ∧ ((getResolvedSingletonDependencies ⟨[(0, [])], 1⟩ 0).2.write
        (getResolvedSingletonDependencies ⟨[(0, [])], 1⟩ 0).1
        [(Token.symbol 0, ⟨9, 9, []⟩)]).read 0 = SnapshotHeap.read ⟨[(0, [])], 1⟩ 0
    ∧ resolveTop ⟨0, [],
          ((getResolvedSingletonDependencies ⟨[(0, [])], 1⟩ 0).2.write
            (getResolvedSingletonDependencies ⟨[(0, [])], 1⟩ 0).1
            [(Token.symbol 0, ⟨9, 9, []⟩)]).read 0, 0⟩ (Token.symbol 0)
        = resolveTop ⟨0, [], [], 0⟩ (Token.symbol 0) :=
  snapshot_isolation ⟨[(0, [])], 1⟩ 0 (by decide) ⟨0, [], [], 0⟩ (Token.symbol 0) rfl
    [(Token.symbol 0, ⟨9, 9, []⟩)]

/-- A successful association lookup exhibits a member of the list. -/
theorem alookup_mem {κ α : Type} [DecidableEq κ] {k : κ} {v : α} :
    ∀ {l : List (κ × α)}, alookup k l = some v → (k, v) ∈ l := by
  intro l
  induction l with
  | nil => intro h; simp [alookup] at h
  | cons p rest ih =>
    intro h
    rw [alookup] at h
    split at h
    next heq =>
      have hv := Option.some.inj h
      subst heq
      rw [← hv]
      exact List.mem_cons_self _ _
    next hne => exact List.mem_cons_of_mem _ (ih h)

/-- Replacing the container under one identifier does not change lookups
under any other identifier. -/
theorem alookup_replaceAt_ne {j i : ContainerId} (c : Container) (hne : j ≠ i) :
    ∀ l : List (ContainerId × Container), alookup j (replaceAt i c l) = alookup j l := by
  intro l
  induction l with
  | nil => rfl
  | cons p rest ih =>
    obtain ⟨k, ck⟩ := p
    rw [replaceAt]
    split
    next hk =>
      have hkj : k ≠ j := fun hh => hne (hh.symm.trans hk)
      rw [alookup_cons_ne _ _ hkj, alookup_cons_ne _ _ hkj]
    next hk =>
      by_cases hkj : k = j
      · subst hkj
        rw [alookup_cons_eq, alookup_cons_eq]
      · rw [alookup_cons_ne _ _ hkj, alookup_cons_ne _ _ hkj, ih]

/-- C9: `Container.of` is idempotent — a repeated `of` with the same
identifier (the reserved default identifier included) returns the identical
Container and leaves the registry unchanged; distinct identifiers yield
Containers with distinct object identities; and registering a token under
one identifier never makes it resolvable in the Container of another
identifier: its registry lookup there is unchanged, and if it was
unregistered there it still fails with `UnregisteredDependencyError`. -/
theorem container_isolation (s : ContainerStore) (hwf : StoreWF s)
    (iA iB : ContainerId) (hne : iA ≠ iB) (t : Token) (b : Binding) :
    (s.of iA).2.of iA = s.of iA
    ∧ (s.of iA).1.cid ≠ ((s.of iA).2.of iB).1.cid
    ∧ ∀ s', s.registerIn iA t b = .ok s' →
        alookup t ((s'.of iB).1.registry) = alookup t ((s.of iB).1.registry)
        ∧ (alookup t ((s.of iB).1.registry) = none →
            resolveTop ((s'.of iB).1) t
              = .err (.unregisteredDependency t) ((s'.of iB).1)) := by
  have hBA : iB ≠ iA := hne.symm
  cases hA : alookup iA s.containers with
  | some cA =>
    have hofA : s.of iA = (cA, s) := by simp [ContainerStore.of, hA]
    have hEq : ∀ s', s.registerIn iA t b = .ok s' →
        alookup t ((s'.of iB).1.registry) = alookup t ((s.of iB).1.registry) := by
      intro s' hreg
      simp only [ContainerStore.registerIn, hofA] at hreg
      cases hR : register cA t b with
      | err e => rw [hR] at hreg; exact absurd hreg (by simp)
      | ok c' =>
        rw [hR] at hreg
        have hs' := StoreRegResult.ok.inj hreg
        rw [← hs']
        have hrep : alookup iB (replaceAt iA c' s.containers) = alookup iB s.containers :=
          alookup_replaceAt_ne c' hBA s.containers
        cases hB : alookup iB s.containers with
        | some cB => simp [ContainerStore.of, hrep, hB]
        | none => simp [ContainerStore.of, hrep, hB, emptyContainer, alookup]
    refine ⟨?_, ?_, ?_⟩
    · rw [hofA]; exact hofA
    · rw [hofA]
      cases hB : alookup iB s.containers with
      | some cB =>
        simp only [ContainerStore.of, hB]
        exact hwf.2 iA iB cA cB hne hA hB
      | none =>
        simp only [ContainerStore.of, hB]
        have hlt : cA.cid < s.nextCid := hwf.1 (iA, cA) (alookup_mem hA)
        simp [emptyContainer]
        omega
    · intro s' hreg
      refine ⟨hEq s' hreg, ?_⟩
      intro hnone
      exact resolve_unregistered (by simp) ((hEq s' hreg).trans hnone) (containerFuel_pos _)
  | none =>
    have hofA : s.of iA =
        (emptyContainer s.nextCid,
          ⟨(iA, emptyContainer s.nextCid) :: s.containers, s.nextCid + 1⟩) := by
      simp [ContainerStore.of, hA]
    have hEq : ∀ s', s.registerIn iA t b = .ok s' →
        alookup t ((s'.of iB).1.registry) = alookup t ((s.of iB).1.registry) := by
      intro s' hreg
      simp only [ContainerStore.registerIn, hofA] at hreg
      rw [register] at hreg
      simp only [emptyContainer] at hreg
      rw [show alookup t (Container.registry ⟨s.nextCid, [], [], 0⟩) = none from rfl] at hreg
      have hs' := StoreRegResult.ok.inj hreg
      rw [← hs']
      have hrepl : replaceAt iA ⟨s.nextCid, (t, b) :: [], [], 0⟩
          ((iA, (⟨s.nextCid, [], [], 0⟩ : Container)) :: s.containers)
            = (iA, (⟨s.nextCid, (t, b) :: [], [], 0⟩ : Container)) :: s.containers := by
        simp [replaceAt]
      have hrep : ∀ cc : Container, alookup iB ((iA, cc) :: s.containers)
          = alookup iB s.containers := fun cc => alookup_cons_ne cc s.containers hne
      cases hB : alookup iB s.containers with
      | some cB => simp [ContainerStore.of, hrepl, hrep, hB, emptyContainer]
      | none => simp [ContainerStore.of, hrepl, hrep, hB, emptyContainer, alookup]
    refine ⟨?_, ?_, ?_⟩
    · rw [hofA]
      simp [ContainerStore.of, alookup_cons_eq, hofA]
    · rw [hofA]
      simp only [ContainerStore.of]
      rw [alookup_cons_ne _ _ hne]
      cases hB : alookup iB s.containers with
      | some cB =>
        have hlt : cB.cid < s.nextCid := hwf.1 (iB, cB) (alookup_mem hB)
        simp [emptyContainer]
        omega
      | none =>
        simp [emptyContainer]
    · intro s' hreg
      refine ⟨hEq s' hreg, ?_⟩
      intro hnone
      exact resolve_unregistered (by simp) ((hEq s' hreg).trans hnone) (containerFuel_pos _)

/-- Witness for C9 on the empty store: `of` on the default identifier is
idempotent, the default and a named container have distinct identities, and
after registering a token in the default container the named container
still fails to resolve it. -/
theorem container_isolation_witness :
    ((⟨[], 0⟩ : ContainerStore).of none).2.of none = (⟨[], 0⟩ : ContainerStore).of none
    ∧ ((⟨[], 0⟩ : ContainerStore).of none).1.cid
        ≠ (((⟨[], 0⟩ : ContainerStore).of none).2.of (some 0)).1.cid
    ∧ resolveTop (((⟨[(none,
            ⟨0, [(Token.symbol 0, ⟨5, Lifetime.singleton, []⟩)], [], 0⟩)], 1⟩ :
          ContainerStore).of (some 0)).1) (Token.symbol 0)
        = .err (.unregisteredDependency (Token.symbol 0))
          (((⟨[(none,
              ⟨0, [(Token.symbol 0, ⟨5, Lifetime.singleton, []⟩)], [], 0⟩)], 1⟩ :
            ContainerStore).of (some 0)).1) :=
  have hthm := container_isolation ⟨[], 0⟩
    ⟨fun p hp => absurd hp (by simp),
     fun i j ci cj hij h1 h2 => by simp [alookup] at h1⟩
    none (some 0) (by simp) (Token.symbol 0) ⟨5, .singleton, []⟩
  ⟨hthm.1, hthm.2.1,
    (hthm.2.2 ⟨[(none, ⟨0, [(Token.symbol 0, ⟨5, Lifetime.singleton, []⟩)], [], 0⟩)], 1⟩
      (by decide)).2 (by decide)⟩

/-- C10: constructor-as-token and canonical-token resolution agree —
resolving by constructor is resolving the constructor's canonical token;
and after a single-argument Singleton registration of a constructor,
once the canonical token has been resolved, resolving by the constructor
returns the same instance identity and leaves the container unchanged. -/
theorem ctor_token_agreement (c : Container) (ctor : Nat) (deps : List Token)
    (c1 : Container) (hr : registerSingletonCtor c ctor deps = .ok c1)
    (inst : Instance) (c2 : Container)
    (h1 : resolveTop c1 (createDependencyToken ctor) = .ok inst c2) :
    resolveConstructor c1 ctor = resolveTop c1 (createDependencyToken ctor)
    ∧ resolveConstructor c2 ctor = .ok inst c2 := by
  constructor
  · rfl
  · have hb : alookup (createDependencyToken ctor) c1.registry
        = some ⟨ctor, .singleton, deps⟩ := by
      rw [registerSingletonCtor, registerSingleton, register] at hr
      split at hr
      · exact absurd hr (by simp)
      next hnone =>
        have hc := RegResult.ok.inj hr
        rw [← hc]
        exact alookup_cons_eq _ _ _
    have hevo : Evo c1 c2 := resolve_ok_evolve h1
    have hreg2 : alookup (createDependencyToken ctor) c2.registry
        = some ⟨ctor, .singleton, deps⟩ := by rw [hevo.1]; exact hb
    have hcache := resolve_ok_singleton_cached hb rfl h1
    exact resolve_cache_hit (by simp) hreg2 rfl hcache (containerFuel_pos c2)

/-- Witness for C10 at a concrete constructor registered with the
single-argument Singleton overload. -/
theorem ctor_token_agreement_witness :
    resolveConstructor ⟨0, [(Token.ctor 3, ⟨3, .singleton, []⟩)], [], 0⟩ 3
      = resolveTop ⟨0, [(Token.ctor 3, ⟨3, .singleton, []⟩)], [], 0⟩
        (createDependencyToken 3)
    ∧ resolveConstructor
        ⟨0, [(Token.ctor 3, ⟨3, .singleton, []⟩)], [(Token.ctor 3, ⟨0, 3, []⟩)], 1⟩ 3
      = .ok ⟨0, 3, []⟩
        ⟨0, [(Token.ctor 3, ⟨3, .singleton, []⟩)], [(Token.ctor 3, ⟨0, 3, []⟩)], 1⟩ :=
  ctor_token_agreement ⟨0, [], [], 0⟩ 3 []
    ⟨0, [(Token.ctor 3, ⟨3, .singleton, []⟩)], [], 0⟩ (by decide) ⟨0, 3, []⟩
    ⟨0, [(Token.ctor 3, ⟨3, .singleton, []⟩)], [(Token.ctor 3, ⟨0, 3, []⟩)], 1⟩
    (by decide)

end IOCC

